import Mathlib

/-!
# Fightclaw match-orchestration core: a shallow embedding

This file embeds the match actor (`apps/server/src/do/MatchDO.ts`) and the
matchmaker (`apps/server/src/do/MatchmakerDO.ts`) of the Fightclaw arena
server in Lean 4 and proves the specification's claims about them.

JavaScript values reaching the handlers are modelled by `JsonValue`; durable
storage of a match actor is modelled by `MatchStorage` (the `state` key and
the `move:`-prefixed idempotency keys live in disjoint key spaces, so they
are carried as separate fields).  Timestamps produced by `new Date()` are
threaded through as a `now : Nat` parameter.
-/

namespace Fightclaw

mutual
/-- JavaScript values as seen by `request.json()`: null, booleans, numbers
(split into integers, for the `Number.isInteger` check, and other numbers),
strings, arrays and plain objects. -/
inductive JsonValue : Type where
  | jnull : JsonValue
  | jbool : Bool → JsonValue
  | jint : Int → JsonValue
  | jnumOther : JsonValue
  | jstr : String → JsonValue
  | jarr : JsonArr → JsonValue
  | jobj : JsonObj → JsonValue

/-- A JavaScript array of values. -/
inductive JsonArr : Type where
  | nil : JsonArr
  | cons : JsonValue → JsonArr → JsonArr

/-- A JavaScript plain object: an ordered list of key/value bindings. -/
inductive JsonObj : Type where
  | nil : JsonObj
  | cons : String → JsonValue → JsonObj → JsonObj
end

deriving instance DecidableEq for JsonValue, JsonArr, JsonObj

/-- Property lookup on a JavaScript object (first binding wins). -/
def jsonGet : JsonObj → String → Option JsonValue
  | .nil, _ => none
  | .cons k v rest, key => if k = key then some v else jsonGet rest key

/-- `isRecord` from MatchDO.ts: `typeof value === "object" && value !== null
&& !Array.isArray(value)`. -/
def isRecord : JsonValue → Bool
  | .jobj _ => true
  | _ => false

/-- The record behind a value satisfying `isRecord`. -/
def asRecord : JsonValue → Option JsonObj
  | .jobj o => some o
  | _ => none

/-- `MatchState` from MatchDO.ts. -/
structure MatchState where
  turn : Nat
  updatedAt : Nat
  lastMove : Option JsonObj
  stateVersion : Nat
deriving DecidableEq

/-- `MoveResult` from MatchDO.ts. -/
inductive MoveResult where
  | ok : MatchState → MoveResult
  | err : String → MoveResult
deriving DecidableEq

/-- `MoveResponse` from MatchDO.ts: `{ok:true, state}` or
`{ok:false, error, stateVersion?}`. -/
inductive MoveResponse where
  | ok : MatchState → MoveResponse
  | err : String → Option Nat → MoveResponse
deriving DecidableEq

/-- `IdempotencyEntry` from MatchDO.ts. -/
structure IdempotencyEntry where
  status : Nat
  body : MoveResponse
deriving DecidableEq

/-- The durable storage of one `MatchDO`: the `state` key and the
`move:<moveId>`-keyed idempotency entries. -/
structure MatchStorage where
  state : Option MatchState
  idem : List (String × IdempotencyEntry)
deriving DecidableEq

/-- `ctx.storage.get` on an idempotency key. -/
def idemGet : List (String × IdempotencyEntry) → String → Option IdempotencyEntry
  | [], _ => none
  | (k, v) :: rest, key => if k = key then some v else idemGet rest key

/-- `ctx.storage.put` on an idempotency key (overwrite). -/
def idemPut (l : List (String × IdempotencyEntry)) (k : String)
    (v : IdempotencyEntry) : List (String × IdempotencyEntry) :=
  (k, v) :: l

/-- `createInitialState` from MatchDO.ts. -/
def createInitialState (now : Nat) : MatchState :=
  { turn := 0, updatedAt := now, lastMove := none, stateVersion := 0 }

/-- `applyMove` from MatchDO.ts. -/
def applyMove (state : MatchState) (now : Nat) (move : JsonValue) : MoveResult :=
  match asRecord move with
  | none => .err "Move payload must be an object."
  | some o =>
      .ok { state with
              turn := state.turn + 1
              updatedAt := now
              stateVersion := state.stateVersion + 1
              lastMove := some o }

/-- `isMovePayload` from MatchDO.ts: a record with a non-empty string
`moveId`, an integral number `expectedVersion`, and a record `move`. -/
def isMovePayload (value : JsonValue) : Bool :=
  match asRecord value with
  | none => false
  | some o =>
      (match jsonGet o "moveId" with
       | some (.jstr s) => s.length > 0
       | _ => false) &&
      (match jsonGet o "expectedVersion" with
       | some (.jint _) => true
       | _ => false) &&
      (match jsonGet o "move" with
       | some m => isRecord m
       | none => false)

/-- The `moveId` field of a validated payload. -/
def payloadMoveId (o : JsonObj) : String :=
  match jsonGet o "moveId" with
  | some (.jstr s) => s
  | _ => ""

/-- The `expectedVersion` field of a validated payload. -/
def payloadExpectedVersion (o : JsonObj) : Int :=
  match jsonGet o "expectedVersion" with
  | some (.jint n) => n
  | _ => 0

/-- The `move` field of a validated payload. -/
def payloadMove (o : JsonObj) : JsonValue :=
  (jsonGet o "move").getD .jnull

/-- The `POST /move` branch of `MatchDO.fetch`: returns the storage after the
call, the HTTP status, and the response body. -/
def handleMove (now : Nat) (storage : MatchStorage) (body : JsonValue) :
    MatchStorage × Nat × MoveResponse :=
  if ¬ isMovePayload body then
    (storage, 400,
      .err "Move payload must include moveId, expectedVersion, and move." none)
  else
    let o := (asRecord body).getD .nil
    let idempotencyKey := "move:" ++ payloadMoveId o
    match idemGet storage.idem idempotencyKey with
    | some cached => (storage, cached.status, cached.body)
    | none =>
        let state := storage.state.getD (createInitialState now)
        if payloadExpectedVersion o ≠ (state.stateVersion : Int) then
          let response := MoveResponse.err "Version mismatch." (some state.stateVersion)
          ({ storage with
               idem := idemPut storage.idem idempotencyKey ⟨409, response⟩ },
           409, response)
        else
          match applyMove state now (payloadMove o) with
          | .err e =>
              let response := MoveResponse.err e none
              ({ storage with
                   idem := idemPut storage.idem idempotencyKey ⟨400, response⟩ },
               400, response)
          | .ok newState =>
              let response := MoveResponse.ok newState
              ({ state := some newState,
                 idem := idemPut storage.idem idempotencyKey ⟨200, response⟩ },
               200, response)

/-- The storage with which a match actor starts: no state, no cached moves. -/
def initialStorage : MatchStorage := { state := none, idem := [] }

/-! ## The matchmaker (`apps/server/src/do/MatchmakerDO.ts`)

The D1 leaderboard table is modelled as a read-only map `db : String →
Option Int` from agent id to rating; writes to the `matches` and
`match_players` tables, calls to the match actor's `/init` endpoint, and
events handed directly to pending waiters are recorded in append-only logs
carried inside `MMState`.  Waiters (`/events/wait` callers currently
suspended) are modelled as a per-agent count. -/

/-- Modelled from the spec: the matchmaker event envelope of section 4.3
(`match_found {matchId, opponent}` and `no_events`); the protocol events
module (`buildMatchFoundEvent`, `buildNoEventsEvent`) is imported by
MatchmakerDO.ts but its source is not in the snapshot. -/
inductive MMEvent where
  | matchFound : String → String → MMEvent
  | noEvents : MMEvent
deriving DecidableEq

/-- A row of the `match_players` table as inserted by
`MatchmakerDO.recordMatchPlayers`. -/
structure MatchPlayerRow where
  matchId : String
  agentId : String
  seat : Nat
  startingRating : Int
deriving DecidableEq

/-- The state of the `MatchmakerDO`: its three storage keys, the per-agent
event buffers (`events:<agentId>` keys), the per-agent waiter counts, and the
append-only effect logs. -/
structure MMState where
  pendingMatchId : Option String
  pendingAgentId : Option String
  latestMatchId : Option String
  buffers : List (String × List MMEvent)
  waiters : List (String × Nat)
  delivered : List (String × MMEvent)
  playersLog : List MatchPlayerRow
  matchesLog : List String
  initCalls : List (String × List String × Nat)
deriving DecidableEq

/-- Association-list lookup (first binding wins). -/
def assocGet {α : Type} : List (String × α) → String → Option α
  | [], _ => none
  | (k, v) :: rest, key => if k = key then some v else assocGet rest key

/-- Association-list overwrite. -/
def assocPut {α : Type} (l : List (String × α)) (k : String) (v : α) :
    List (String × α) :=
  (k, v) :: l

/-- `ELO_START` from MatchmakerDO.ts. -/
def ELO_START : Int := 1500

/-- `EVENT_BUFFER_MAX` from MatchmakerDO.ts. -/
def EVENT_BUFFER_MAX : Nat := 25

/-- `MatchmakerDO.getRating`: the leaderboard rating, or `ELO_START` when the
agent has no row. -/
def getRating (db : String → Option Int) (agentId : String) : Int :=
  match db agentId with
  | some r => r
  | none => ELO_START

/-- The buffer mutation inside `MatchmakerDO.enqueueEvent`: push, then
`splice(0, length - EVENT_BUFFER_MAX)` when over capacity. -/
def pushBounded (events : List MMEvent) (event : MMEvent) : List MMEvent :=
  let es := events ++ [event]
  if es.length > EVENT_BUFFER_MAX then es.drop (es.length - EVENT_BUFFER_MAX)
  else es

/-- The event buffer currently stored for an agent. -/
def bufferOf (st : MMState) (agentId : String) : List MMEvent :=
  (assocGet st.buffers agentId).getD []

/-- The waiter count for an agent. -/
def waiterCount (st : MMState) (agentId : String) : Nat :=
  (assocGet st.waiters agentId).getD 0

/-- The events handed directly to an agent's waiters, oldest first. -/
def deliveredTo (st : MMState) (agentId : String) : List MMEvent :=
  (st.delivered.filter (fun p => p.1 = agentId)).map Prod.snd

/-- `MatchmakerDO.enqueueEvent`: hand the event to a pending waiter when one
exists, otherwise append it to the agent's bounded buffer. -/
def enqueueEvent (st : MMState) (agentId : String) (event : MMEvent) : MMState :=
  let w := waiterCount st agentId
  if w > 0 then
    { st with
        waiters := assocPut st.waiters agentId (w - 1)
        delivered := st.delivered ++ [(agentId, event)] }
  else
    { st with
        buffers := assocPut st.buffers agentId (pushBounded (bufferOf st agentId) event) }

/-- `MatchmakerDO.recordMatchPlayers`: insert the two `match_players` rows,
seats 0 and 1, with the players' current ratings. -/
def recordMatchPlayers (db : String → Option Int) (st : MMState)
    (matchId : String) (players : List String) : MMState :=
  { st with
      playersLog := st.playersLog ++
        [ { matchId := matchId, agentId := players.getD 0 "", seat := 0,
            startingRating := getRating db (players.getD 0 "") },
          { matchId := matchId, agentId := players.getD 1 "", seat := 1,
            startingRating := getRating db (players.getD 1 "") } ] }

/-- `QueueResponse` from MatchmakerDO.ts. -/
structure QueueResponse where
  matchId : String
  status : String
deriving DecidableEq

/-- The `POST /queue` branch of `MatchmakerDO.fetch`.  `newMatchId` stands
for `crypto.randomUUID()` and `seed` for the random seed, both drawn outside
the model. -/
def handleQueue (db : String → Option Int) (newMatchId : String) (seed : Nat)
    (agentId : String) (st : MMState) : MMState × QueueResponse :=
  match st.pendingMatchId, st.pendingAgentId with
  | some pendingMatchId, some pendingAgentId =>
      if pendingAgentId = agentId then
        (st, { matchId := pendingMatchId, status := "waiting" })
      else
        let players := [pendingAgentId, agentId]
        let st1 : MMState :=
          { st with
              pendingMatchId := none
              pendingAgentId := none
              latestMatchId := some pendingMatchId
              initCalls := st.initCalls ++ [(pendingMatchId, players, seed)] }
        let st2 := recordMatchPlayers db st1 pendingMatchId players
        let st3 := enqueueEvent st2 pendingAgentId (.matchFound pendingMatchId agentId)
        let st4 := enqueueEvent st3 agentId (.matchFound pendingMatchId pendingAgentId)
        (st4, { matchId := pendingMatchId, status := "ready" })
  | _, _ =>
      let st1 : MMState :=
        { st with
            pendingMatchId := some newMatchId
            pendingAgentId := some agentId
            latestMatchId := some newMatchId
            matchesLog := st.matchesLog ++ [newMatchId] }
      (st1, { matchId := newMatchId, status := "waiting" })

/-! ## The turn-deadline timer, modelled from the spec

No timer, alarm or timeout code exists anywhere under `src/`, so the
turn-deadline expiry of spec section 4.2.3 is modelled here from the
spec's words, over the actor state of section 3.1. -/

/-- Modelled from the spec: the outcome of a move submission (section
4.2.2) — acceptance with the new state version and active agent, or a
rejection carrying its code, the current active agent, and the current
state version where applicable.  Used as the value type of the actor's
idempotency table. -/
inductive SubmitOutcome where
  | accepted : Nat → String → SubmitOutcome
  | rejected : String → Option String → Option Nat → SubmitOutcome
deriving DecidableEq

/-- Modelled from the spec: the broadcast envelope of section 4.3 restricted
to the fields the claims mention. -/
inductive Broadcast where
  | stateEvt : Nat → Broadcast
  | engineEventsEvt : Nat → String → String → Broadcast
  | yourTurn : String → Nat → Broadcast
  | gameEnded : Option String → String → Nat → Broadcast
deriving DecidableEq

/-- Modelled from the spec: the mutable state a match actor owns (section
3.1 `MatchState` plus the idempotency table of section 3.1 and the players
of the match). -/
structure ActorState (S : Type) where
  players : List String
  engine : S
  stateVersion : Nat
  activeAgentId : String
  ended : Option (Option String × String)
  idem : List (String × (Nat × SubmitOutcome))
deriving DecidableEq

/-- Modelled from the spec: "the other agent" of a two-player match. -/
def otherAgent (players : List String) (agentId : String) : String :=
  if players.getD 0 "" = agentId then players.getD 1 "" else players.getD 0 ""

/-- Modelled from the spec: the shared termination step of sections 4.2.2.e-f
and 4.2.4 — mark the match ended and broadcast, in order, a `state` event,
the `engine_events` envelope of the move that ended it, and `game_ended`. -/
def endMatchSequence {S : Type} (st : ActorState S) (agentId moveId : String)
    (winner : Option String) (reason : String) : ActorState S × List Broadcast :=
  ({ st with ended := some (winner, reason) },
   [ .stateEvt st.stateVersion,
     .engineEventsEvt st.stateVersion agentId moveId,
     .gameEnded winner reason st.stateVersion ])

/-- Modelled from the spec: the turn-deadline expiry of section 4.2.3 — a
synthetic `turn_timeout` forfeit applied to the agent whose turn it was,
going through the same termination step as a submitted move that ends the
match, with the other agent as winner. -/
def onTurnTimeout {S : Type} (st : ActorState S) : ActorState S × List Broadcast :=
  if st.ended.isSome then (st, [])
  else
    let loser := st.activeAgentId
    let winner := otherAgent st.players loser
    endMatchSequence { st with stateVersion := st.stateVersion + 1 }
      loser "turn_timeout" (some winner) "turn_timeout"

/-! ## Helper notions and lemmas -/

/-- The idempotency key a request body is filed under. -/
def moveKey (body : JsonValue) : String :=
  "move:" ++ payloadMoveId ((asRecord body).getD .nil)

/-- The state version currently stored for a match (0 before any state was
written, as in `createInitialState`). -/
def storageVersion (storage : MatchStorage) : Nat :=
  match storage.state with
  | some s => s.stateVersion
  | none => 0

/-- Run a sequence of `/move` requests, each with its own timestamp. -/
def runMoves (reqs : List (Nat × JsonValue)) (storage : MatchStorage) :
    MatchStorage :=
  reqs.foldl (fun s r => (handleMove r.1 s r.2).1) storage

/-- The C9 invariant: every stored state has `turn = stateVersion`. -/
def TurnInv (storage : MatchStorage) : Prop :=
  ∀ s, storage.state = some s → s.turn = s.stateVersion

/-- The C10 invariant: every cached response is a 409 or a 200 — the
illegal-move 400 is never cached because it is never produced. -/
def IdemStatusInv (storage : MatchStorage) : Prop :=
  ∀ k e, idemGet storage.idem k = some e → e.status = 409 ∨ e.status = 200

/-- A well-formed move request body, for concrete evaluations. -/
def mkMoveBody (moveId : String) (expectedVersion : Int) : JsonValue :=
  .jobj (.cons "moveId" (.jstr moveId)
    (.cons "expectedVersion" (.jint expectedVersion)
      (.cons "move" (.jobj .nil) .nil)))

/-- A fresh two-player actor state, for concrete evaluations. -/
def demoActor : ActorState Nat :=
  { players := ["alpha", "beta"], engine := 0, stateVersion := 0,
    activeAgentId := "alpha", ended := none, idem := [] }

/-- A matchmaker state with a full (25-event) buffer for `"carol"` and no
waiters, for concrete evaluations. -/
def fullBufState : MMState :=
  { pendingMatchId := none, pendingAgentId := none, latestMatchId := none,
    buffers := [("carol", List.replicate 25 MMEvent.noEvents)],
    waiters := [], delivered := [], playersLog := [], matchesLog := [],
    initCalls := [] }

/-- A matchmaker state whose pending slot holds `("m0", "bob")`, with one
waiter pending for `"bob"` and a one-event buffer for `"alice"`, for
concrete evaluations. -/
def demoMM : MMState :=
  { pendingMatchId := some "m0", pendingAgentId := some "bob",
    latestMatchId := some "m0",
    buffers := [("alice", [MMEvent.noEvents])],
    waiters := [("bob", 1)],
    delivered := [], playersLog := [], matchesLog := [], initCalls := [] }

theorem idemGet_idemPut_self (l : List (String × IdempotencyEntry)) (k : String)
    (v : IdempotencyEntry) : idemGet (idemPut l k v) k = some v := by
  simp [idemGet, idemPut]

/-- Replaying any request against the storage its first processing produced
gives back exactly the first call's storage, status and body. -/
theorem handleMove_replay (now now' : Nat) (storage : MatchStorage)
    (body : JsonValue) :
    handleMove now' (handleMove now storage body).1 body =
      handleMove now storage body := by
  by_cases hp : isMovePayload body = true
  · rcases hc : idemGet storage.idem ("move:" ++ payloadMoveId ((asRecord body).getD JsonObj.nil)) with _ | e
    · by_cases hv : payloadExpectedVersion ((asRecord body).getD JsonObj.nil) =
        (((storage.state.getD (createInitialState now)).stateVersion : Int))
      · rcases ha : applyMove (storage.state.getD (createInitialState now)) now
            (payloadMove ((asRecord body).getD JsonObj.nil)) with ns | e
        · simp [handleMove, hp, hc, hv, ha, idemGet, idemPut]
        · simp [handleMove, hp, hc, hv, ha, idemGet, idemPut]
      · simp [handleMove, hp, hc, hv, idemGet, idemPut]
    · simp [handleMove, hp, hc]
  · simp [handleMove, hp]

/-! ## The claims -/

/-- C1: for every matchId and every moveId, submitting the same move request
(same moveId, expectedVersion, move) N ≥ 1 times yields the same response
status and body for all N calls, and the stored match state is mutated at
most once, by the first call; all later calls return the cached response
without touching state.  Stated as: replaying the request (at any later
time) against the storage the first call produced returns the first call's
storage, status and body unchanged — by induction every later call agrees
with the first and leaves storage untouched. -/
theorem submitMove_idempotent (now now' : Nat) (storage : MatchStorage)
    (body : JsonValue) :
    handleMove now' (handleMove now storage body).1 body =
      handleMove now storage body :=
  handleMove_replay now now' storage body

/-- C2: for every submitMove request whose moveId is not already cached and
whose expectedVersion differs from the current stateVersion, the response is
a 409 conflict whose body reports the current stateVersion, and the stored
match state is unchanged by the call. -/
theorem version_mismatch_conflict (now : Nat) (storage : MatchStorage)
    (body : JsonValue) (hp : isMovePayload body = true)
    (hc : idemGet storage.idem (moveKey body) = none)
    (hv : payloadExpectedVersion ((asRecord body).getD .nil) ≠
      (((storage.state.getD (createInitialState now)).stateVersion : Int))) :
    (handleMove now storage body).2.1 = 409 ∧
    (handleMove now storage body).2.2 =
      .err "Version mismatch."
        (some (storage.state.getD (createInitialState now)).stateVersion) ∧
    (handleMove now storage body).1.state = storage.state := by
  rw [moveKey] at hc
  simp [handleMove, hp, hc, hv]

/-- Witness for C2: from the initial storage, a fresh move with
`expectedVersion = 1` against stored version 0 is a 409 reporting version 0
and leaves the state untouched. -/
theorem version_mismatch_conflict_witness :
    (isMovePayload (mkMoveBody "m1" 1) = true ∧
     idemGet initialStorage.idem (moveKey (mkMoveBody "m1" 1)) = none ∧
     payloadExpectedVersion ((asRecord (mkMoveBody "m1" 1)).getD .nil) ≠
       (((initialStorage.state.getD (createInitialState 0)).stateVersion : Int))) ∧
    ((handleMove 0 initialStorage (mkMoveBody "m1" 1)).2.1 = 409 ∧
     (handleMove 0 initialStorage (mkMoveBody "m1" 1)).2.2 =
       .err "Version mismatch."
         (some (initialStorage.state.getD (createInitialState 0)).stateVersion) ∧
     (handleMove 0 initialStorage (mkMoveBody "m1" 1)).1.state =
       initialStorage.state) :=
  ⟨⟨by decide, by decide, by decide⟩,
   version_mismatch_conflict 0 initialStorage (mkMoveBody "m1" 1)
     (by decide) (by decide) (by decide)⟩

theorem applyMove_asRecord_none (state : MatchState) (now : Nat) (mv : JsonValue)
    (h : asRecord mv = none) :
    applyMove state now mv = .err "Move payload must be an object." := by
  rw [applyMove, h]

theorem applyMove_asRecord_some (state : MatchState) (now : Nat) (mv : JsonValue)
    (o : JsonObj) (h : asRecord mv = some o) :
    applyMove state now mv =
      .ok { state with
              turn := state.turn + 1
              updatedAt := now
              stateVersion := state.stateVersion + 1
              lastMove := some o } := by
  rw [applyMove, h]

theorem applyMove_ok_shape (state : MatchState) (now : Nat) (mv : JsonValue)
    (ns : MatchState) (h : applyMove state now mv = .ok ns) :
    ns.turn = state.turn + 1 ∧ ns.stateVersion = state.stateVersion + 1 ∧
      ns.updatedAt = now := by
  rcases hr : asRecord mv with _ | o
  · rw [applyMove_asRecord_none _ _ _ hr] at h
    simp at h
  · rw [applyMove_asRecord_some _ _ _ _ hr] at h
    cases h
    exact ⟨rfl, rfl, rfl⟩

theorem getD_stateVersion (storage : MatchStorage) (now : Nat) :
    (storage.state.getD (createInitialState now)).stateVersion =
      storageVersion storage := by
  cases h : storage.state <;> simp [storageVersion, h, createInitialState]

/-- A cache hit leaves the storage entirely unchanged. -/
theorem handleMove_cached (now : Nat) (storage : MatchStorage) (body : JsonValue)
    (e : IdempotencyEntry) (hc : idemGet storage.idem (moveKey body) = some e) :
    (handleMove now storage body).1 = storage := by
  rw [moveKey] at hc
  by_cases hp : isMovePayload body = true
  · simp [handleMove, hp, hc]
  · simp [handleMove, hp]

/-- A non-200 call leaves the `state` key unchanged. -/
theorem handleMove_not_ok_state (now : Nat) (storage : MatchStorage)
    (body : JsonValue) (h : (handleMove now storage body).2.1 ≠ 200) :
    (handleMove now storage body).1.state = storage.state := by
  by_cases hp : isMovePayload body = true
  · rcases hc : idemGet storage.idem ("move:" ++ payloadMoveId ((asRecord body).getD JsonObj.nil)) with _ | e
    · by_cases hv : payloadExpectedVersion ((asRecord body).getD JsonObj.nil) =
        (((storage.state.getD (createInitialState now)).stateVersion : Int))
      · rcases ha : applyMove (storage.state.getD (createInitialState now)) now
            (payloadMove ((asRecord body).getD JsonObj.nil)) with ns | e
        · exact absurd (by simp [handleMove, hp, hc, hv, ha]) h
        · simp [handleMove, hp, hc, hv, ha]
      · simp [handleMove, hp, hc, hv]
    · simp [handleMove, hp, hc]
  · simp [handleMove, hp]

/-- An uncached 200 call stores a state whose version is one more than the
previous one. -/
theorem handleMove_accepted_version (now : Nat) (storage : MatchStorage)
    (body : JsonValue) (hc : idemGet storage.idem (moveKey body) = none)
    (h200 : (handleMove now storage body).2.1 = 200) :
    storageVersion (handleMove now storage body).1 = storageVersion storage + 1 := by
  rw [moveKey] at hc
  by_cases hp : isMovePayload body = true
  · by_cases hv : payloadExpectedVersion ((asRecord body).getD JsonObj.nil) =
        (((storage.state.getD (createInitialState now)).stateVersion : Int))
    · rcases ha : applyMove (storage.state.getD (createInitialState now)) now
          (payloadMove ((asRecord body).getD JsonObj.nil)) with ns | e
      · have hshape := applyMove_ok_shape _ _ _ _ ha
        have : (handleMove now storage body).1.state = some ns := by
          simp [handleMove, hp, hc, hv, ha]
        simp [storageVersion, this, hshape.2.1, getD_stateVersion storage now]
      · have hs : (handleMove now storage body).2.1 = 400 := by
          simp [handleMove, hp, hc, hv, ha]
        rw [hs] at h200
        exact absurd h200 (by decide)
    · have hs : (handleMove now storage body).2.1 = 409 := by
        simp [handleMove, hp, hc, hv]
      rw [hs] at h200
      exact absurd h200 (by decide)
  · have hs : (handleMove now storage body).2.1 = 400 := by
      simp [handleMove, hp]
    rw [hs] at h200
    exact absurd h200 (by decide)

/-- Any call that changes the `state` key is an uncached 200. -/
theorem handleMove_mutation_accepted (now : Nat) (storage : MatchStorage)
    (body : JsonValue)
    (h : (handleMove now storage body).1.state ≠ storage.state) :
    (handleMove now storage body).2.1 = 200 ∧
      idemGet storage.idem (moveKey body) = none := by
  rcases hc : idemGet storage.idem (moveKey body) with _ | e
  · refine ⟨?_, rfl⟩
    by_contra hne
    exact h (handleMove_not_ok_state now storage body hne)
  · exact absurd (by rw [handleMove_cached now storage body e hc]) h

/-- One call never decreases the stored version. -/
theorem handleMove_version_mono (now : Nat) (storage : MatchStorage)
    (body : JsonValue) :
    storageVersion storage ≤ storageVersion (handleMove now storage body).1 := by
  by_cases h200 : (handleMove now storage body).2.1 = 200
  · rcases hc : idemGet storage.idem (moveKey body) with _ | e
    · rw [handleMove_accepted_version now storage body hc h200]
      exact Nat.le_succ _
    · rw [handleMove_cached now storage body e hc]
  · have hst := handleMove_not_ok_state now storage body h200
    simp [storageVersion, hst]

/-- C3: for every match, `stateVersion` increases by exactly 1 on every
accepted move (an uncached call answered 200, equivalently any call that
mutates the stored state) and never decreases across any sequence of move
submissions; rejected submissions leave `stateVersion` unchanged. -/
theorem stateVersion_exact_increment (now : Nat) (storage : MatchStorage)
    (body : JsonValue) :
    ((handleMove now storage body).1.state ≠ storage.state →
       (handleMove now storage body).2.1 = 200 ∧
       storageVersion (handleMove now storage body).1 = storageVersion storage + 1) ∧
    (idemGet storage.idem (moveKey body) = none →
       (handleMove now storage body).2.1 = 200 →
       storageVersion (handleMove now storage body).1 = storageVersion storage + 1) ∧
    ((handleMove now storage body).2.1 ≠ 200 →
       (handleMove now storage body).1.state = storage.state) ∧
    ∀ reqs : List (Nat × JsonValue),
      storageVersion storage ≤
        storageVersion (reqs.foldl (fun s r => (handleMove r.1 s r.2).1) storage) := by
  refine ⟨?_, ?_, handleMove_not_ok_state now storage body, ?_⟩
  · intro h
    obtain ⟨h200, hc⟩ := handleMove_mutation_accepted now storage body h
    exact ⟨h200, handleMove_accepted_version now storage body hc h200⟩
  · exact fun hc h200 => handleMove_accepted_version now storage body hc h200
  · intro reqs
    induction reqs generalizing storage with
    | nil => exact le_refl _
    | cons r rest ih =>
        exact le_trans (handleMove_version_mono r.1 storage r.2) (ih _)

/-- Witness for C3: the first accepted move from the initial storage is a
200 and bumps the stored version from 0 to 1. -/
theorem stateVersion_exact_increment_witness :
    (idemGet initialStorage.idem (moveKey (mkMoveBody "m1" 0)) = none ∧
     (handleMove 0 initialStorage (mkMoveBody "m1" 0)).2.1 = 200) ∧
    storageVersion (handleMove 0 initialStorage (mkMoveBody "m1" 0)).1 =
      storageVersion initialStorage + 1 :=
  ⟨⟨by decide, by decide⟩,
   (stateVersion_exact_increment 0 initialStorage (mkMoveBody "m1" 0)).2.1
     (by decide) (by decide)⟩

/-- A cache hit on a valid payload returns the stored status and body and
leaves storage unchanged. -/
theorem handleMove_cache_hit (now : Nat) (storage : MatchStorage)
    (body : JsonValue) (e : IdempotencyEntry)
    (hp : isMovePayload body = true)
    (hc : idemGet storage.idem (moveKey body) = some e) :
    handleMove now storage body = (storage, e.status, e.body) := by
  rw [moveKey] at hc
  simp [handleMove, hp, hc]

/-- Each call either leaves the idempotency table alone or prepends exactly
one entry, keyed by the request's own moveId. -/
theorem handleMove_idem_shape (now : Nat) (storage : MatchStorage)
    (body : JsonValue) :
    (handleMove now storage body).1.idem = storage.idem ∨
    ∃ entry, (handleMove now storage body).1.idem =
      (moveKey body, entry) :: storage.idem := by
  by_cases hp : isMovePayload body = true
  · rcases hc : idemGet storage.idem ("move:" ++ payloadMoveId ((asRecord body).getD JsonObj.nil)) with _ | e
    · by_cases hv : payloadExpectedVersion ((asRecord body).getD JsonObj.nil) =
        (((storage.state.getD (createInitialState now)).stateVersion : Int))
      · rcases ha : applyMove (storage.state.getD (createInitialState now)) now
            (payloadMove ((asRecord body).getD JsonObj.nil)) with ns | e
        · exact Or.inr ⟨⟨200, .ok ns⟩,
            by simp [handleMove, hp, hc, hv, ha, idemPut, moveKey]⟩
        · exact Or.inr ⟨⟨400, .err e none⟩,
            by simp [handleMove, hp, hc, hv, ha, idemPut, moveKey]⟩
      · exact Or.inr ⟨⟨409, .err "Version mismatch."
            (some (storage.state.getD (createInitialState now)).stateVersion)⟩,
            by simp [handleMove, hp, hc, hv, idemPut, moveKey]⟩
    · exact Or.inl (by simp [handleMove, hp, hc])
  · exact Or.inl (by simp [handleMove, hp])

theorem idemGet_cons_ne (k : String) (v : IdempotencyEntry)
    (l : List (String × IdempotencyEntry)) (key : String) (h : k ≠ key) :
    idemGet ((k, v) :: l) key = idemGet l key := by
  simp [idemGet, h]

/-- An idempotency entry, once stored, survives every later call. -/
theorem idem_entry_persists (now : Nat) (storage : MatchStorage)
    (body : JsonValue) (key : String) (e : IdempotencyEntry)
    (h : idemGet storage.idem key = some e) :
    idemGet (handleMove now storage body).1.idem key = some e := by
  rcases handleMove_idem_shape now storage body with hs | ⟨entry, hs⟩
  · rw [hs]; exact h
  · rw [hs]
    by_cases hk : moveKey body = key
    · subst hk
      by_cases hp : isMovePayload body = true
      · rw [handleMove_cache_hit now storage body e hp h] at hs
        exact absurd (congrArg List.length hs) (by simp)
      · have : (handleMove now storage body).1.idem = storage.idem := by
          simp [handleMove, hp]
        rw [this] at hs
        exact absurd (congrArg List.length hs) (by simp)
    · rw [idemGet_cons_ne _ _ _ _ hk]
      exact h

/-- An idempotency entry survives any whole sequence of later calls. -/
theorem idem_entry_persists_run (reqs : List (Nat × JsonValue))
    (storage : MatchStorage) (key : String) (e : IdempotencyEntry)
    (h : idemGet storage.idem key = some e) :
    idemGet (runMoves reqs storage).idem key = some e := by
  induction reqs generalizing storage with
  | nil => exact h
  | cons r rest ih =>
      exact ih _ (idem_entry_persists r.1 storage r.2 key e h)

/-- The 409 recorded by a version mismatch, as stored under the moveId. -/
theorem handleMove_409_entry (now : Nat) (storage : MatchStorage)
    (body : JsonValue) (hp : isMovePayload body = true)
    (hc : idemGet storage.idem (moveKey body) = none)
    (hv : payloadExpectedVersion ((asRecord body).getD .nil) ≠
      (((storage.state.getD (createInitialState now)).stateVersion : Int))) :
    idemGet (handleMove now storage body).1.idem (moveKey body) =
      some ⟨409, .err "Version mismatch."
        (some (storage.state.getD (createInitialState now)).stateVersion)⟩ := by
  rw [moveKey] at hc
  simp [handleMove, hp, hc, hv, idemPut, idemGet, moveKey]

/-- C8: a 409 version_mismatch response is stored in the idempotency table
under its moveId, so every later submitMove reusing that moveId — after any
sequence of intervening calls, and even resent with the then-correct
expectedVersion — returns the original 409 response, leaves storage
untouched, and never applies the move; a client must mint a new moveId to
retry after a version mismatch. -/
theorem version_mismatch_sticky (now : Nat) (storage : MatchStorage)
    (body : JsonValue) (hp : isMovePayload body = true)
    (hc : idemGet storage.idem (moveKey body) = none)
    (hv : payloadExpectedVersion ((asRecord body).getD .nil) ≠
      (((storage.state.getD (createInitialState now)).stateVersion : Int))) :
    ∀ (reqs : List (Nat × JsonValue)) (now' : Nat) (body' : JsonValue),
      isMovePayload body' = true →
      moveKey body' = moveKey body →
      handleMove now' (runMoves reqs (handleMove now storage body).1) body' =
        (runMoves reqs (handleMove now storage body).1, 409,
         .err "Version mismatch."
           (some (storage.state.getD (createInitialState now)).stateVersion)) := by
  intro reqs now' body' hp' hk
  have h1 := handleMove_409_entry now storage body hp hc hv
  have h2 := idem_entry_persists_run reqs (handleMove now storage body).1
    (moveKey body) _ h1
  rw [← hk] at h2
  exact handleMove_cache_hit now' _ body' _ hp' h2

/-- Witness for C8: after a version-mismatch 409 on moveId `m1` and an
intervening accepted move on `m2`, resending `m1` with the then-correct
version still returns the original 409 and changes nothing. -/
theorem version_mismatch_sticky_witness :
    (isMovePayload (mkMoveBody "m1" 5) = true ∧
     idemGet initialStorage.idem (moveKey (mkMoveBody "m1" 5)) = none ∧
     payloadExpectedVersion ((asRecord (mkMoveBody "m1" 5)).getD .nil) ≠
       (((initialStorage.state.getD (createInitialState 0)).stateVersion : Int)) ∧
     isMovePayload (mkMoveBody "m1" 1) = true ∧
     moveKey (mkMoveBody "m1" 1) = moveKey (mkMoveBody "m1" 5)) ∧
    handleMove 7 (runMoves [(3, mkMoveBody "m2" 0)]
        (handleMove 0 initialStorage (mkMoveBody "m1" 5)).1) (mkMoveBody "m1" 1) =
      (runMoves [(3, mkMoveBody "m2" 0)]
        (handleMove 0 initialStorage (mkMoveBody "m1" 5)).1, 409,
       .err "Version mismatch."
         (some (initialStorage.state.getD (createInitialState 0)).stateVersion)) :=
  ⟨⟨by decide, by decide, by decide, by decide, by decide⟩,
   version_mismatch_sticky 0 initialStorage (mkMoveBody "m1" 5)
     (by decide) (by decide) (by decide)
     [(3, mkMoveBody "m2" 0)] 7 (mkMoveBody "m1" 1) (by decide) (by decide)⟩

/-- An uncached 200 call stores exactly the state `applyMove` produced. -/
theorem handleMove_ok_state (now : Nat) (storage : MatchStorage)
    (body : JsonValue) (hc : idemGet storage.idem (moveKey body) = none)
    (h200 : (handleMove now storage body).2.1 = 200) :
    ∃ ns, (handleMove now storage body).1.state = some ns ∧
      applyMove (storage.state.getD (createInitialState now)) now
        (payloadMove ((asRecord body).getD .nil)) = .ok ns := by
  rw [moveKey] at hc
  by_cases hp : isMovePayload body = true
  · by_cases hv : payloadExpectedVersion ((asRecord body).getD JsonObj.nil) =
        (((storage.state.getD (createInitialState now)).stateVersion : Int))
    · rcases ha : applyMove (storage.state.getD (createInitialState now)) now
          (payloadMove ((asRecord body).getD JsonObj.nil)) with ns | e
      · exact ⟨ns, by simp [handleMove, hp, hc, hv, ha], rfl⟩
      · have hs : (handleMove now storage body).2.1 = 400 := by
          simp [handleMove, hp, hc, hv, ha]
        rw [hs] at h200
        exact absurd h200 (by decide)
    · have hs : (handleMove now storage body).2.1 = 409 := by
        simp [handleMove, hp, hc, hv]
      rw [hs] at h200
      exact absurd h200 (by decide)
  · have hs : (handleMove now storage body).2.1 = 400 := by
      simp [handleMove, hp]
    rw [hs] at h200
    exact absurd h200 (by decide)

/-- One call preserves the `turn = stateVersion` invariant. -/
theorem handleMove_TurnInv (now : Nat) (storage : MatchStorage)
    (body : JsonValue) (hinv : TurnInv storage) :
    TurnInv (handleMove now storage body).1 := by
  by_cases h200 : (handleMove now storage body).2.1 = 200
  · rcases hcc : idemGet storage.idem (moveKey body) with _ | e
    · obtain ⟨ns, hst, ha⟩ := handleMove_ok_state now storage body hcc h200
      obtain ⟨ht, hvv, _⟩ := applyMove_ok_shape _ _ _ _ ha
      intro s hs
      rw [hst] at hs
      cases hs
      have hg : (storage.state.getD (createInitialState now)).turn =
          (storage.state.getD (createInitialState now)).stateVersion := by
        cases hss : storage.state with
        | some s0 => simpa [hss] using hinv s0 hss
        | none => simp [hss, createInitialState]
      rw [ht, hvv, hg]
    · have heq := handleMove_cached now storage body e hcc
      intro s hs
      rw [heq] at hs
      exact hinv s hs
  · have hst := handleMove_not_ok_state now storage body h200
    intro s hs
    rw [hst] at hs
    exact hinv s hs

/-- Any run of `/move` requests preserves the invariant. -/
theorem runMoves_TurnInv (reqs : List (Nat × JsonValue)) (storage : MatchStorage)
    (hinv : TurnInv storage) : TurnInv (runMoves reqs storage) := by
  induction reqs generalizing storage with
  | nil => exact hinv
  | cons r rest ih => exact ih _ (handleMove_TurnInv r.1 storage r.2 hinv)

/-- C9: in every MatchDO state reachable from the initial state via any
sequence of `/move` requests, the turn counter equals `stateVersion`: both
start at 0 in `createInitialState`, every accepted move increments both by
exactly 1, and no other operation changes either field. -/
theorem turn_equals_stateVersion :
    (∀ now, (createInitialState now).turn = 0 ∧
       (createInitialState now).stateVersion = 0) ∧
    (∀ (state : MatchState) (now : Nat) (mv : JsonValue) (ns : MatchState),
       applyMove state now mv = .ok ns →
       ns.turn = state.turn + 1 ∧ ns.stateVersion = state.stateVersion + 1) ∧
    (∀ (now : Nat) (storage : MatchStorage) (body : JsonValue),
       TurnInv storage → TurnInv (handleMove now storage body).1) ∧
    ∀ (reqs : List (Nat × JsonValue)) (s : MatchState),
      (runMoves reqs initialStorage).state = some s → s.turn = s.stateVersion := by
  refine ⟨fun now => ⟨rfl, rfl⟩, ?_, handleMove_TurnInv, ?_⟩
  · intro state now mv ns h
    obtain ⟨h1, h2, _⟩ := applyMove_ok_shape state now mv ns h
    exact ⟨h1, h2⟩
  · intro reqs s hs
    refine runMoves_TurnInv reqs initialStorage ?_ s hs
    intro s0 h0
    simp [initialStorage] at h0

/-- Witness for C9: after one accepted move from the initial storage the
stored state is `turn = 1, stateVersion = 1`. -/
theorem turn_equals_stateVersion_witness :
    (runMoves [(0, mkMoveBody "m1" 0)] initialStorage).state =
      some { turn := 1, updatedAt := 0, lastMove := some .nil, stateVersion := 1 } ∧
    ({ turn := 1, updatedAt := 0, lastMove := some .nil,
       stateVersion := 1 } : MatchState).turn =
      ({ turn := 1, updatedAt := 0, lastMove := some .nil,
         stateVersion := 1 } : MatchState).stateVersion :=
  ⟨by decide,
   turn_equals_stateVersion.2.2.2 [(0, mkMoveBody "m1" 0)] _ (by decide)⟩

/-- A validated payload's `move` field is a record. -/
theorem isMovePayload_move_record (body : JsonValue)
    (hp : isMovePayload body = true) :
    ∃ o', asRecord (payloadMove ((asRecord body).getD .nil)) = some o' := by
  rcases hb : asRecord body with _ | o
  · simp [isMovePayload, hb] at hp
  · simp only [isMovePayload, hb, Bool.and_eq_true] at hp
    rcases hm : jsonGet o "move" with _ | m
    · rw [hm] at hp
      simp at hp
    · rw [hm] at hp
      have hrec : isRecord m = true := hp.2
      cases m with
      | jnull => simp [isRecord] at hrec
      | jbool b => simp [isRecord] at hrec
      | jint n => simp [isRecord] at hrec
      | jnumOther => simp [isRecord] at hrec
      | jstr s => simp [isRecord] at hrec
      | jarr xs => simp [isRecord] at hrec
      | jobj o2 => exact ⟨o2, by simp [payloadMove, hb, hm, asRecord]⟩

/-- One call preserves the cached-status invariant. -/
theorem handleMove_IdemStatusInv (now : Nat) (storage : MatchStorage)
    (body : JsonValue) (hinv : IdemStatusInv storage) :
    IdemStatusInv (handleMove now storage body).1 := by
  by_cases hp : isMovePayload body = true
  · rcases hc : idemGet storage.idem (moveKey body) with _ | e
    · have hc' := hc
      rw [moveKey] at hc'
      by_cases hv : payloadExpectedVersion ((asRecord body).getD JsonObj.nil) =
          (((storage.state.getD (createInitialState now)).stateVersion : Int))
      · obtain ⟨o', ho⟩ := isMovePayload_move_record body hp
        have ha := applyMove_asRecord_some
          (storage.state.getD (createInitialState now)) now
          (payloadMove ((asRecord body).getD .nil)) o' ho
        have hidem : (handleMove now storage body).1.idem =
            (moveKey body,
              ⟨200, .ok { (storage.state.getD (createInitialState now)) with
                turn := (storage.state.getD (createInitialState now)).turn + 1
                updatedAt := now
                stateVersion :=
                  (storage.state.getD (createInitialState now)).stateVersion + 1
                lastMove := some o' }⟩) :: storage.idem := by
          simp [handleMove, hp, hc', hv, ha, idemPut, moveKey]
        intro k e h
        rw [hidem] at h
        by_cases hk : moveKey body = k
        · subst hk
          simp [idemGet] at h
          rw [← h]
          exact Or.inr rfl
        · rw [idemGet_cons_ne _ _ _ _ hk] at h
          exact hinv k e h
      · have hidem : (handleMove now storage body).1.idem =
            (moveKey body,
              ⟨409, .err "Version mismatch."
                (some (storage.state.getD (createInitialState now)).stateVersion)⟩)
              :: storage.idem := by
          simp [handleMove, hp, hc', hv, idemPut, moveKey]
        intro k e h
        rw [hidem] at h
        by_cases hk : moveKey body = k
        · subst hk
          simp [idemGet] at h
          rw [← h]
          exact Or.inl rfl
        · rw [idemGet_cons_ne _ _ _ _ hk] at h
          exact hinv k e h
    · have heq := handleMove_cached now storage body e hc
      intro k e' h
      rw [heq] at h
      exact hinv k e' h
  · have hidem : (handleMove now storage body).1.idem = storage.idem := by
      simp [handleMove, hp]
    intro k e h
    rw [hidem] at h
    exact hinv k e h

/-- Any run preserves the cached-status invariant. -/
theorem runMoves_IdemStatusInv_preserve (reqs : List (Nat × JsonValue))
    (storage : MatchStorage) (hinv : IdemStatusInv storage) :
    IdemStatusInv (runMoves reqs storage) := by
  induction reqs generalizing storage with
  | nil => exact hinv
  | cons r rest ih => exact ih _ (handleMove_IdemStatusInv r.1 storage r.2 hinv)

/-- Any run from the initial storage satisfies the cached-status invariant. -/
theorem runMoves_IdemStatusInv (reqs : List (Nat × JsonValue)) :
    IdemStatusInv (runMoves reqs initialStorage) := by
  refine runMoves_IdemStatusInv_preserve reqs initialStorage ?_
  intro k e h
  simp [initialStorage, idemGet] at h

/-- C10: for every request body accepted by `isMovePayload` the move field
is an object, so `applyMove`'s "Move payload must be an object." branch is
unreachable in the `/move` handler: `applyMove` succeeds on the validated
move, every uncached version-matching move is answered 200, and on any
storage reachable from the initial one a validated request is never
answered 400. -/
theorem valid_payload_never_illegal (now : Nat) (storage : MatchStorage)
    (body : JsonValue) (hp : isMovePayload body = true) :
    (∃ ns, applyMove (storage.state.getD (createInitialState now)) now
        (payloadMove ((asRecord body).getD .nil)) = .ok ns) ∧
    (idemGet storage.idem (moveKey body) = none →
       payloadExpectedVersion ((asRecord body).getD .nil) =
         (((storage.state.getD (createInitialState now)).stateVersion : Int)) →
       (handleMove now storage body).2.1 = 200) ∧
    ∀ reqs : List (Nat × JsonValue),
      (handleMove now (runMoves reqs initialStorage) body).2.1 ≠ 400 := by
  obtain ⟨o', ho⟩ := isMovePayload_move_record body hp
  have ha := applyMove_asRecord_some
    (storage.state.getD (createInitialState now)) now
    (payloadMove ((asRecord body).getD .nil)) o' ho
  refine ⟨⟨_, ha⟩, ?_, ?_⟩
  · intro hc hv
    rw [moveKey] at hc
    simp [handleMove, hp, hc, hv, ha]
  · intro reqs
    have hinv := runMoves_IdemStatusInv reqs
    rcases hc : idemGet (runMoves reqs initialStorage).idem (moveKey body) with _ | e
    · by_cases hv : payloadExpectedVersion ((asRecord body).getD JsonObj.nil) =
          ((((runMoves reqs initialStorage).state.getD
              (createInitialState now)).stateVersion : Int))
      · obtain ⟨o2, ho2⟩ := isMovePayload_move_record body hp
        have ha2 := applyMove_asRecord_some
          ((runMoves reqs initialStorage).state.getD (createInitialState now)) now
          (payloadMove ((asRecord body).getD .nil)) o2 ho2
        have hc' := hc
        rw [moveKey] at hc'
        have hs : (handleMove now (runMoves reqs initialStorage) body).2.1 = 200 := by
          simp [handleMove, hp, hc', hv, ha2]
        rw [hs]
        decide
      · have hc' := hc
        rw [moveKey] at hc'
        have hs : (handleMove now (runMoves reqs initialStorage) body).2.1 = 409 := by
          simp [handleMove, hp, hc', hv]
        rw [hs]
        decide
    · have hs := handleMove_cache_hit now (runMoves reqs initialStorage) body e hp hc
      rw [hs]
      rcases hinv (moveKey body) e hc with h9 | h2
      · simp [h9]
      · simp [h2]

/-- Witness for C10: the first move from the initial storage is validated,
applies cleanly, and is answered 200. -/
theorem valid_payload_never_illegal_witness :
    (isMovePayload (mkMoveBody "m1" 0) = true ∧
     idemGet initialStorage.idem (moveKey (mkMoveBody "m1" 0)) = none ∧
     payloadExpectedVersion ((asRecord (mkMoveBody "m1" 0)).getD .nil) =
       (((initialStorage.state.getD (createInitialState 0)).stateVersion : Int))) ∧
    (handleMove 0 initialStorage (mkMoveBody "m1" 0)).2.1 = 200 :=
  ⟨⟨by decide, by decide, by decide⟩,
   (valid_payload_never_illegal 0 initialStorage (mkMoveBody "m1" 0)
     (by decide)).2.1 (by decide) (by decide)⟩

/-! ## Matchmaker lemmas -/

theorem assocGet_assocPut_self {α : Type} (l : List (String × α)) (k : String)
    (v : α) : assocGet (assocPut l k v) k = some v := by
  simp [assocGet, assocPut]

theorem assocGet_assocPut_ne {α : Type} (l : List (String × α)) (k key : String)
    (v : α) (h : k ≠ key) : assocGet (assocPut l k v) key = assocGet l key := by
  simp [assocGet, assocPut, h]

/-- With no waiter pending, `enqueueEvent` rewrites the agent's buffer to the
bounded push and leaves everything else alone. -/
theorem enqueueEvent_no_waiter (st : MMState) (a : String) (e : MMEvent)
    (hw : waiterCount st a = 0) :
    enqueueEvent st a e =
      { st with buffers := assocPut st.buffers a (pushBounded (bufferOf st a) e) } := by
  simp [enqueueEvent, hw]

/-- With a waiter pending, `enqueueEvent` consumes one waiter and hands the
event over; buffers are untouched. -/
theorem enqueueEvent_with_waiter (st : MMState) (a : String) (e : MMEvent)
    (hw : waiterCount st a > 0) :
    enqueueEvent st a e =
      { st with
          waiters := assocPut st.waiters a (waiterCount st a - 1)
          delivered := st.delivered ++ [(a, e)] } := by
  simp [enqueueEvent, hw]

theorem pushBounded_at_capacity (es : List MMEvent) (e : MMEvent)
    (h : es.length = EVENT_BUFFER_MAX) :
    pushBounded es e = es.tail ++ [e] := by
  unfold pushBounded
  have hmax : EVENT_BUFFER_MAX = 25 := rfl
  have hlen : (es ++ [e]).length = EVENT_BUFFER_MAX + 1 := by simp [h]
  rw [if_pos (by omega)]
  have hdrop : (es ++ [e]).length - EVENT_BUFFER_MAX = 1 := by omega
  rw [hdrop, List.drop_append_of_le_length (by omega), List.drop_one]

theorem pushBounded_length_le (es : List MMEvent) (e : MMEvent) :
    (pushBounded es e).length ≤ EVENT_BUFFER_MAX := by
  unfold pushBounded
  by_cases h : (es ++ [e]).length > EVENT_BUFFER_MAX
  · rw [if_pos h]
    simp only [List.length_drop]
    omega
  · rw [if_neg h]
    exact Nat.le_of_not_lt h

theorem pushBounded_suffix (es : List MMEvent) (e : MMEvent) :
    (pushBounded es e).IsSuffix (es ++ [e]) := by
  unfold pushBounded
  by_cases h : (es ++ [e]).length > EVENT_BUFFER_MAX
  · rw [if_pos h]
    exact List.drop_suffix _ _
  · rw [if_neg h]

/-- C6: with no waiter pending, enqueueing onto a buffer already holding
`EVENT_BUFFER_MAX = 25` events drops the oldest buffered event and appends
the new one; the buffer that results from an enqueue never exceeds 25
events, and is always a suffix of the old buffer followed by the new event
(most recent events, FIFO order). -/
theorem buffer_drop_oldest (st : MMState) (agentId : String) (event : MMEvent)
    (hw : waiterCount st agentId = 0) :
    ((bufferOf st agentId).length = EVENT_BUFFER_MAX →
       bufferOf (enqueueEvent st agentId event) agentId =
         (bufferOf st agentId).tail ++ [event]) ∧
    (bufferOf (enqueueEvent st agentId event) agentId).length ≤
      EVENT_BUFFER_MAX ∧
    (bufferOf (enqueueEvent st agentId event) agentId).IsSuffix
      (bufferOf st agentId ++ [event]) := by
  have hb : bufferOf (enqueueEvent st agentId event) agentId =
      pushBounded (bufferOf st agentId) event := by
    rw [enqueueEvent_no_waiter st agentId event hw]
    simp [bufferOf, assocGet_assocPut_self]
  refine ⟨fun hlen => ?_, ?_, ?_⟩
  · rw [hb, pushBounded_at_capacity _ _ hlen]
  · rw [hb]
    exact pushBounded_length_le _ _
  · rw [hb]
    exact pushBounded_suffix _ _

/-- Witness for C6: enqueueing onto `"carol"`'s full 25-event buffer drops
the oldest event and appends the new one. -/
theorem buffer_drop_oldest_witness :
    (waiterCount fullBufState "carol" = 0 ∧
     (bufferOf fullBufState "carol").length = EVENT_BUFFER_MAX) ∧
    bufferOf (enqueueEvent fullBufState "carol" (.matchFound "m9" "dave")) "carol" =
      (bufferOf fullBufState "carol").tail ++ [.matchFound "m9" "dave"] :=
  ⟨⟨by decide, by decide⟩,
   (buffer_drop_oldest fullBufState "carol" (.matchFound "m9" "dave")
     (by decide)).1 (by decide)⟩

/-- `enqueueEvent` never changes the pending slot, the latest-match pointer
or the players log. -/
theorem enqueueEvent_other_fields (st : MMState) (a : String) (e : MMEvent) :
    (enqueueEvent st a e).pendingMatchId = st.pendingMatchId ∧
    (enqueueEvent st a e).pendingAgentId = st.pendingAgentId ∧
    (enqueueEvent st a e).latestMatchId = st.latestMatchId ∧
    (enqueueEvent st a e).playersLog = st.playersLog := by
  by_cases hw : waiterCount st a > 0
  · rw [enqueueEvent_with_waiter st a e hw]
    exact ⟨rfl, rfl, rfl, rfl⟩
  · rw [enqueueEvent_no_waiter st a e (Nat.eq_zero_of_not_pos hw)]
    exact ⟨rfl, rfl, rfl, rfl⟩

theorem bufferOf_enqueue_ne (st : MMState) (a : String) (e : MMEvent)
    (x : String) (h : a ≠ x) :
    bufferOf (enqueueEvent st a e) x = bufferOf st x := by
  by_cases hw : waiterCount st a > 0
  · rw [enqueueEvent_with_waiter st a e hw]
    rfl
  · rw [enqueueEvent_no_waiter st a e (Nat.eq_zero_of_not_pos hw)]
    simp [bufferOf, assocGet_assocPut_ne _ _ _ _ h]

theorem deliveredTo_enqueue_ne (st : MMState) (a : String) (e : MMEvent)
    (x : String) (h : a ≠ x) :
    deliveredTo (enqueueEvent st a e) x = deliveredTo st x := by
  by_cases hw : waiterCount st a > 0
  · rw [enqueueEvent_with_waiter st a e hw]
    simp [deliveredTo, List.filter_append, h]
  · rw [enqueueEvent_no_waiter st a e (Nat.eq_zero_of_not_pos hw)]
    rfl

theorem waiterCount_enqueue_ne (st : MMState) (a : String) (e : MMEvent)
    (x : String) (h : a ≠ x) :
    waiterCount (enqueueEvent st a e) x = waiterCount st x := by
  by_cases hw : waiterCount st a > 0
  · rw [enqueueEvent_with_waiter st a e hw]
    simp [waiterCount, assocGet_assocPut_ne _ _ _ _ h]
  · rw [enqueueEvent_no_waiter st a e (Nat.eq_zero_of_not_pos hw)]
    rfl

theorem enqueue_self_waiter (st : MMState) (a : String) (e : MMEvent)
    (hw : waiterCount st a > 0) :
    deliveredTo (enqueueEvent st a e) a = deliveredTo st a ++ [e] ∧
    bufferOf (enqueueEvent st a e) a = bufferOf st a := by
  rw [enqueueEvent_with_waiter st a e hw]
  exact ⟨by simp [deliveredTo, List.filter_append], rfl⟩

theorem enqueue_self_no_waiter (st : MMState) (a : String) (e : MMEvent)
    (hw : waiterCount st a = 0) :
    bufferOf (enqueueEvent st a e) a = pushBounded (bufferOf st a) e ∧
    deliveredTo (enqueueEvent st a e) a = deliveredTo st a := by
  rw [enqueueEvent_no_waiter st a e hw]
  exact ⟨by simp [bufferOf, assocGet_assocPut_self], rfl⟩

/-- C5: when `joinQueue(a)` finds the pending slot holding `(m, b)` with
`b ≠ a`, the call clears the pending slot, sets `latestMatchId` to `m`,
records both MatchPlayers with their current ratings (default 1500 when the
agent has no leaderboard row, via `getRating`), hands each of `b` and `a`
exactly one `match_found` event carrying the other agent's id — to a pending
waiter if one exists, into the bounded buffer otherwise — and returns
`{matchId: m, status: ready}`. -/
theorem pairing_effects (db : String → Option Int) (newMatchId : String)
    (seed : Nat) (a m b : String) (st : MMState)
    (hm : st.pendingMatchId = some m) (hb : st.pendingAgentId = some b)
    (hne : b ≠ a) :
    (handleQueue db newMatchId seed a st).2 =
      { matchId := m, status := "ready" } ∧
    (handleQueue db newMatchId seed a st).1.pendingMatchId = none ∧
    (handleQueue db newMatchId seed a st).1.pendingAgentId = none ∧
    (handleQueue db newMatchId seed a st).1.latestMatchId = some m ∧
    (handleQueue db newMatchId seed a st).1.playersLog = st.playersLog ++
      [ { matchId := m, agentId := b, seat := 0,
          startingRating := getRating db b },
        { matchId := m, agentId := a, seat := 1,
          startingRating := getRating db a } ] ∧
    (waiterCount st b = 0 →
       bufferOf (handleQueue db newMatchId seed a st).1 b =
         pushBounded (bufferOf st b) (.matchFound m a) ∧
       deliveredTo (handleQueue db newMatchId seed a st).1 b =
         deliveredTo st b) ∧
    (waiterCount st b > 0 →
       deliveredTo (handleQueue db newMatchId seed a st).1 b =
         deliveredTo st b ++ [.matchFound m a] ∧
       bufferOf (handleQueue db newMatchId seed a st).1 b = bufferOf st b) ∧
    (waiterCount st a = 0 →
       bufferOf (handleQueue db newMatchId seed a st).1 a =
         pushBounded (bufferOf st a) (.matchFound m b) ∧
       deliveredTo (handleQueue db newMatchId seed a st).1 a =
         deliveredTo st a) ∧
    (waiterCount st a > 0 →
       deliveredTo (handleQueue db newMatchId seed a st).1 a =
         deliveredTo st a ++ [.matchFound m b] ∧
       bufferOf (handleQueue db newMatchId seed a st).1 a = bufferOf st a) := by
  have hq : handleQueue db newMatchId seed a st =
      (enqueueEvent
        (enqueueEvent
          (recordMatchPlayers db
            { st with
                pendingMatchId := none
                pendingAgentId := none
                latestMatchId := some m
                initCalls := st.initCalls ++ [(m, [b, a], seed)] }
            m [b, a])
          b (.matchFound m a))
        a (.matchFound m b),
       { matchId := m, status := "ready" }) := by
    unfold handleQueue
    rw [hm, hb]
    dsimp only
    rw [if_neg hne]
  rw [hq]
  dsimp only
  set st2 : MMState := recordMatchPlayers db
    { st with
        pendingMatchId := none
        pendingAgentId := none
        latestMatchId := some m
        initCalls := st.initCalls ++ [(m, [b, a], seed)] } m [b, a] with hst2
  set st3 : MMState := enqueueEvent st2 b (.matchFound m a) with hst3
  refine ⟨rfl, ?_, ?_, ?_, ?_, ?_, ?_, ?_, ?_⟩
  · rw [(enqueueEvent_other_fields st3 a _).1, hst3,
      (enqueueEvent_other_fields st2 b _).1]
    rfl
  · rw [(enqueueEvent_other_fields st3 a _).2.1, hst3,
      (enqueueEvent_other_fields st2 b _).2.1]
    rfl
  · rw [(enqueueEvent_other_fields st3 a _).2.2.1, hst3,
      (enqueueEvent_other_fields st2 b _).2.2.1]
    rfl
  · rw [(enqueueEvent_other_fields st3 a _).2.2.2, hst3,
      (enqueueEvent_other_fields st2 b _).2.2.2, hst2]
    simp [recordMatchPlayers]
  · intro hwb
    have hwb2 : waiterCount st2 b = 0 := hwb
    constructor
    · rw [bufferOf_enqueue_ne st3 a _ b (Ne.symm hne), hst3,
        (enqueue_self_no_waiter st2 b _ hwb2).1]
      rfl
    · rw [deliveredTo_enqueue_ne st3 a _ b (Ne.symm hne), hst3,
        (enqueue_self_no_waiter st2 b _ hwb2).2]
      rfl
  · intro hwb
    have hwb2 : waiterCount st2 b > 0 := hwb
    constructor
    · rw [deliveredTo_enqueue_ne st3 a _ b (Ne.symm hne), hst3,
        (enqueue_self_waiter st2 b _ hwb2).1]
      rfl
    · rw [bufferOf_enqueue_ne st3 a _ b (Ne.symm hne), hst3,
        (enqueue_self_waiter st2 b _ hwb2).2]
      rfl
  · intro hwa
    have hwa3 : waiterCount st3 a = 0 := by
      rw [hst3, waiterCount_enqueue_ne st2 b _ a hne]
      exact hwa
    constructor
    · rw [(enqueue_self_no_waiter st3 a _ hwa3).1, hst3,
        bufferOf_enqueue_ne st2 b _ a hne]
      rfl
    · rw [(enqueue_self_no_waiter st3 a _ hwa3).2, hst3,
        deliveredTo_enqueue_ne st2 b _ a hne]
      rfl
  · intro hwa
    have hwa3 : waiterCount st3 a > 0 := by
      rw [hst3, waiterCount_enqueue_ne st2 b _ a hne]
      exact hwa
    constructor
    · rw [(enqueue_self_waiter st3 a _ hwa3).1, hst3,
        deliveredTo_enqueue_ne st2 b _ a hne]
      rfl
    · rw [(enqueue_self_waiter st3 a _ hwa3).2, hst3,
        bufferOf_enqueue_ne st2 b _ a hne]
      rfl

/-- Witness for C5: `"alice"` joining while the slot holds `("m0", "bob")`
pairs them, returns ready, and hands `"bob"`'s `match_found` to his waiter. -/
theorem pairing_effects_witness :
    (demoMM.pendingMatchId = some "m0" ∧ demoMM.pendingAgentId = some "bob" ∧
     ("bob" : String) ≠ "alice") ∧
    (handleQueue (fun _ => none) "nm" 42 "alice" demoMM).2 =
      { matchId := "m0", status := "ready" } :=
  ⟨⟨by decide, by decide, by decide⟩,
   (pairing_effects (fun _ => none) "nm" 42 "alice" "m0" "bob" demoMM
     (by decide) (by decide) (by decide)).1⟩

/-- C4: the move-submission handler of `MatchDO.fetch` performs no agent
authorization at all — a `/move` request carries no agent identity, so a
fresh version-matching move is applied (HTTP 200, state mutated) no matter
who sends it, including the non-active agent, and on any storage reachable
from the initial one the handler only ever answers 200, 400 or 409, never
the 403 `not_your_turn` rejection the claim requires.  Demonstrated at the
failing input: moveId `"u1"`, `expectedVersion 0`, empty move on a fresh
match. -/
theorem move_applied_without_authorization :
    (handleMove 0 initialStorage (mkMoveBody "u1" 0)).2.1 = 200 ∧
    (handleMove 0 initialStorage (mkMoveBody "u1" 0)).1.state =
      some { turn := 1, updatedAt := 0, lastMove := some .nil,
             stateVersion := 1 } ∧
    ∀ (reqs : List (Nat × JsonValue)) (now : Nat) (body : JsonValue),
      (handleMove now (runMoves reqs initialStorage) body).2.1 = 200 ∨
      (handleMove now (runMoves reqs initialStorage) body).2.1 = 400 ∨
      (handleMove now (runMoves reqs initialStorage) body).2.1 = 409 := by
  refine ⟨by decide, by decide, ?_⟩
  intro reqs now body
  have hinv := runMoves_IdemStatusInv reqs
  by_cases hp : isMovePayload body = true
  · rcases hc : idemGet (runMoves reqs initialStorage).idem (moveKey body) with _ | e
    · have hc' := hc
      rw [moveKey] at hc'
      by_cases hv : payloadExpectedVersion ((asRecord body).getD JsonObj.nil) =
          ((((runMoves reqs initialStorage).state.getD
              (createInitialState now)).stateVersion : Int))
      · obtain ⟨o', ho⟩ := isMovePayload_move_record body hp
        have ha := applyMove_asRecord_some
          ((runMoves reqs initialStorage).state.getD (createInitialState now)) now
          (payloadMove ((asRecord body).getD .nil)) o' ho
        exact Or.inl (by simp [handleMove, hp, hc', hv, ha])
      · exact Or.inr (Or.inr (by simp [handleMove, hp, hc', hv]))
    · have hs := handleMove_cache_hit now (runMoves reqs initialStorage) body e hp hc
      rw [hs]
      rcases hinv (moveKey body) e hc with h9 | h2
      · exact Or.inr (Or.inr h9)
      · exact Or.inl h2
  · exact Or.inr (Or.inl (by simp [handleMove, hp]))

/-- C7 (spec-modelled): when the turn deadline expires on an active match,
the actor applies a synthetic `turn_timeout` forfeit: the match ends with
reason `turn_timeout` and winner the agent other than the one whose turn it
was, and the broadcasts are exactly the shared end-of-match sequence
(`state`, `engine_events`, `game_ended`) that a submitted move ending the
match also produces via `endMatchSequence`. -/
theorem turn_timeout_forfeit {S : Type} (st : ActorState S)
    (h : st.ended = none) :
    (onTurnTimeout st).1.ended =
      some (some (otherAgent st.players st.activeAgentId), "turn_timeout") ∧
    onTurnTimeout st =
      endMatchSequence { st with stateVersion := st.stateVersion + 1 }
        st.activeAgentId "turn_timeout"
        (some (otherAgent st.players st.activeAgentId)) "turn_timeout" ∧
    (onTurnTimeout st).2 =
      [ .stateEvt (st.stateVersion + 1),
        .engineEventsEvt (st.stateVersion + 1) st.activeAgentId "turn_timeout",
        .gameEnded (some (otherAgent st.players st.activeAgentId)) "turn_timeout"
          (st.stateVersion + 1) ] := by
  refine ⟨?_, ?_, ?_⟩ <;> simp [onTurnTimeout, h, endMatchSequence]

/-- Witness for C7: a timeout on the fresh demo actor (active agent
`"alpha"`) ends the match with winner `"beta"` and reason `turn_timeout`. -/
theorem turn_timeout_forfeit_witness :
    demoActor.ended = none ∧
    (onTurnTimeout demoActor).1.ended =
      some (some (otherAgent demoActor.players demoActor.activeAgentId),
        "turn_timeout") ∧
    otherAgent demoActor.players demoActor.activeAgentId = "beta" :=
  ⟨by decide, (turn_timeout_forfeit demoActor (by decide)).1, by decide⟩

end Fightclaw
